import Mathlib

/-!
Shallow embedding of the content/data API of the web-dema repository
(`src/server.js`, first revision in the file, and `src/database.js`, final
revision in the file: the `BandDatabase` class with media columns and
`normalizeOrderValue`).

Modelling conventions:
* JavaScript request-body values are modelled by `JsVal` (undefined, string,
  boolean, number); JS truthiness is `JsVal.truthy`.
* SQLite tables are lists of row structures; `INTEGER PRIMARY KEY
  AUTOINCREMENT` is modelled by carrying the `sqlite_sequence` counter.
* `CURRENT_TIMESTAMP` values are supplied as explicit `Nat` parameters.
* String operations are implemented on `String.data` character lists so that
  every definition evaluates inside the kernel.
-/

namespace WebDema

/-- A JSON-ish JavaScript value as it can appear in a parsed request body. -/
inductive JsVal where
  | undef
  | str (s : String)
  | boolVal (b : Bool)
  | numVal (n : Int)
deriving DecidableEq

/-- JavaScript truthiness of a `JsVal`. -/
def JsVal.truthy : JsVal → Bool
  | .undef => false
  | .str s => s != ""
  | .boolVal b => b
  | .numVal n => n != 0

/-- JavaScript `a || b`. -/
def jsOrVal (a b : JsVal) : JsVal :=
  if a.truthy then a else b

/-- Reads a string out of a `JsVal` (used only where the source has already
established that the value is a string). -/
def JsVal.asStr : JsVal → String
  | .str s => s
  | _ => ""

/-- JavaScript `x || ''` for a field that is either absent or a string. -/
def jsStrOrEmpty : Option String → String
  | none => ""
  | some s => s

/-- `String.prototype.trim` (ASCII whitespace), computed on the char list so
that it reduces in the kernel. -/
def jsTrim (s : String) : String :=
  ⟨((s.data.dropWhile Char.isWhitespace).reverse.dropWhile Char.isWhitespace).reverse⟩

/-- `toLowerCase` (ASCII). -/
def jsToLower (s : String) : String :=
  ⟨s.data.map Char.toLower⟩

/-- Char-list prefix test (`String.prototype.startsWith`). -/
def charsHavePre : List Char → List Char → Bool
  | [], _ => true
  | _ :: _, [] => false
  | p :: ps, c :: cs => p == c && charsHavePre ps cs

/-- `s.startsWith(p)`. -/
def strStartsWith (s p : String) : Bool :=
  charsHavePre p.data s.data

/-- Leading decimal digits of a char list. -/
def leadingDigits (cs : List Char) : List Char :=
  cs.takeWhile Char.isDigit

/-- Numeric value of a digit list. -/
def digitsToNat (cs : List Char) : Nat :=
  cs.foldl (fun acc c => acc * 10 + (c.toNat - '0'.toNat)) 0

/-- `parseInt(s, 10)`: skip leading whitespace, optional sign, then read the
leading run of decimal digits; `none` models `NaN` (no digits found). -/
def jsParseIntChars (cs0 : List Char) : Option Int :=
  let cs := cs0.dropWhile Char.isWhitespace
  match cs with
  | '-' :: rest =>
      let ds := leadingDigits rest
      if ds.isEmpty then none else some (-(digitsToNat ds : Int))
  | '+' :: rest =>
      let ds := leadingDigits rest
      if ds.isEmpty then none else some ((digitsToNat ds : Int))
  | _ =>
      let ds := leadingDigits cs
      if ds.isEmpty then none else some ((digitsToNat ds : Int))

/-- `parseInt(s, 10)` on a `String`. -/
def jsParseIntStr (s : String) : Option Int :=
  jsParseIntChars s.data

/-!
## Validation & sanitization layer (`src/server.js` lines 94-124)
-/

/-- A `POST /api/tours` (or `PUT /api/tours/:id`) request body. -/
structure TourBody where
  date : JsVal
  city : JsVal
  venue : JsVal
  ticketLink : JsVal
deriving DecidableEq

/-- The three required tour fields checked by `validateTourData`. -/
inductive TourField where
  | date
  | city
  | venue
deriving DecidableEq

/-- Projection of a `TourBody` at a `TourField`. -/
def TourBody.proj (b : TourBody) : TourField → JsVal
  | .date => b.date
  | .city => b.city
  | .venue => b.venue

/-- Maximum lengths from the `maxLengths` object (`city: 100, venue: 200,
date: 50`). -/
def TourField.maxLen : TourField → Nat
  | .date => 50
  | .city => 100
  | .venue => 200

/-- The message `Field '<f>' is required and must be a non-empty string`. -/
def requiredMsg : TourField → String
  | .date => "Field \x27date\x27 is required and must be a non-empty string"
  | .city => "Field \x27city\x27 is required and must be a non-empty string"
  | .venue => "Field \x27venue\x27 is required and must be a non-empty string"

/-- The message `Field '<f>' must be less than <n> characters`. -/
def tooLongMsg : TourField → String
  | .date => "Field \x27date\x27 must be less than 50 characters"
  | .city => "Field \x27city\x27 must be less than 100 characters"
  | .venue => "Field \x27venue\x27 must be less than 200 characters"

/-- Negation of `!data[field] || typeof data[field] !== 'string' ||
data[field].trim() === ''`: the per-field required check passes. -/
def requiredOk (v : JsVal) : Bool :=
  match v with
  | .str s => (s != "") && (jsTrim s != "")
  | _ => false

/-- `data[field] && data[field].length > maxLength`: the per-field length
check fires. Non-string values either are falsy or have an undefined
`.length`, so they never fire it. -/
def lengthTooLong (v : JsVal) (maxLength : Nat) : Bool :=
  match v with
  | .str s => (s != "") && decide (s.length > maxLength)
  | _ => false

/-- `validateTourData` (`src/server.js` lines 94-113): required fields are
checked in the order date, city, venue; length limits in the `maxLengths`
insertion order city, venue, date. Returns `some message` on failure, `none`
on success. -/
def validateTourData (b : TourBody) : Option String :=
  if !(requiredOk b.date) then some (requiredMsg .date)
  else if !(requiredOk b.city) then some (requiredMsg .city)
  else if !(requiredOk b.venue) then some (requiredMsg .venue)
  else if lengthTooLong b.city 100 then some (tooLongMsg .city)
  else if lengthTooLong b.venue 200 then some (tooLongMsg .venue)
  else if lengthTooLong b.date 50 then some (tooLongMsg .date)
  else none

/-- The tag-stripping automaton of `str.replace(/<[^>]*>?/gm, '')`: outside a
tag, `<` opens one and everything else is kept; inside a tag everything is
dropped and `>` closes it (a tag left open at the end of the string is also
dropped, matching the optional `>?`). -/
def stripTagsAux : Bool → List Char → List Char
  | _, [] => []
  | true, c :: cs => if c = '>' then stripTagsAux false cs else stripTagsAux true cs
  | false, c :: cs => if c = '<' then stripTagsAux true cs else c :: stripTagsAux false cs

/-- `sanitizeString` (`src/server.js` lines 121-124): non-strings become `''`;
strings have markup-tag shapes removed and are truncated to `maxLength`
(call sites pass the JS default 200 explicitly). -/
def sanitizeString (v : JsVal) (maxLength : Nat) : String :=
  match v with
  | .str s => ⟨(stripTagsAux false s.data).take maxLength⟩
  | _ => ""

/-!
## Store: tours (`src/database.js` tours table and methods)
-/

/-- A row of the `tours` table. -/
structure TourRow where
  id : Int
  date : String
  city : String
  venue : String
  ticketLink : String
  createdAt : Nat
  updatedAt : Nat
deriving DecidableEq

/-- The `tours` table plus its `sqlite_sequence` counter (the table is
declared `INTEGER PRIMARY KEY AUTOINCREMENT`, so assigned rowids always
exceed every rowid ever assigned before, even across deletes). -/
structure ToursState where
  rows : List TourRow
  seq : Int
deriving DecidableEq

/-- `BandDatabase.addTour`: inserts and returns `lastInsertRowid`. -/
def ToursState.addTour (s : ToursState) (date city venue ticketLink : String)
    (now : Nat) : ToursState × Int :=
  let newId := s.seq + 1
  ({ rows := s.rows ++ [{ id := newId, date := date, city := city, venue := venue,
                          ticketLink := ticketLink, createdAt := now, updatedAt := now }],
     seq := newId }, newId)

/-- `BandDatabase.updateTour`: updates the matching row, returns
`changes > 0`. -/
def ToursState.updateTour (s : ToursState) (id : Int)
    (date city venue ticketLink : String) (now : Nat) : ToursState × Bool :=
  ({ s with rows := s.rows.map (fun r =>
      if r.id = id then
        { r with date := date, city := city, venue := venue,
                 ticketLink := ticketLink, updatedAt := now }
      else r) },
   s.rows.any (fun r => r.id == id))

/-- `BandDatabase.deleteTour`: deletes the matching row, returns
`changes > 0`. -/
def ToursState.deleteTour (s : ToursState) (id : Int) : ToursState × Bool :=
  ({ s with rows := s.rows.filter (fun r => !(r.id == id)) },
   s.rows.any (fun r => r.id == id))

/-!
## Store: countdown singleton (`src/database.js` countdown table and methods)
-/

/-- A row of the `countdown` table (`id INTEGER PRIMARY KEY CHECK (id = 1)`). -/
structure CountdownRow where
  id : Int
  title : String
  description : String
  releaseDate : String
  enabled : Bool
  completedTitle : String
  completedDescription : String
  preReleaseMessage : String
  updatedAt : Nat
deriving DecidableEq

/-- The JS object handed to `BandDatabase.updateCountdown`; every text field
goes through `|| ''`, so absent fields are stored as `''`. -/
structure CountdownData where
  title : Option String
  description : Option String
  releaseDate : Option String
  enabled : Bool
  completedTitle : Option String
  completedDescription : Option String
  preReleaseMessage : Option String
deriving DecidableEq

/-- The row written by one `updateCountdown` call. -/
def countdownRowOf (d : CountdownData) (now : Nat) : CountdownRow :=
  { id := 1,
    title := jsStrOrEmpty d.title,
    description := jsStrOrEmpty d.description,
    releaseDate := jsStrOrEmpty d.releaseDate,
    enabled := d.enabled,
    completedTitle := jsStrOrEmpty d.completedTitle,
    completedDescription := jsStrOrEmpty d.completedDescription,
    preReleaseMessage := jsStrOrEmpty d.preReleaseMessage,
    updatedAt := now }

/-- `BandDatabase.getCountdown`: `SELECT * FROM countdown WHERE id = 1`
(`none` models the `{}` returned when the row does not exist). -/
def getCountdown (t : List CountdownRow) : Option CountdownRow :=
  t.find? (fun r => r.id == 1)

/-- `BandDatabase.updateCountdown`: `INSERT OR REPLACE INTO countdown
(id, ...) VALUES (1, ...)` deletes any row conflicting on the fixed primary
key 1 and inserts the fresh row, then re-reads the singleton. -/
def updateCountdown (t : List CountdownRow) (d : CountdownData) (now : Nat) :
    List CountdownRow × Option CountdownRow :=
  let t2 := (t.filter (fun r => !(r.id == 1))) ++ [countdownRowOf d now]
  (t2, getCountdown t2)

/-- A sequence of `updateCountdown` calls. -/
def applyCountdownWrites (t : List CountdownRow) :
    List (CountdownData × Nat) → List CountdownRow
  | [] => t
  | (d, now) :: ds => applyCountdownWrites (updateCountdown t d now).1 ds

/-!
## Store: gallery (`src/database.js` gallery table and methods)
-/

/-- A row of the `gallery` table (`id TEXT PRIMARY KEY`). -/
structure GalleryRow where
  id : String
  filename : String
  title : String
  description : String
  orderNum : Int
  mediaType : String
  thumbnail : Option String
  mimeType : Option String
  createdAt : Nat
deriving DecidableEq

/-- The `order` property of a photo object reaching the store: absent, a
string form field, or a number. -/
inductive OrderVal where
  | missing
  | str (s : String)
  | num (n : Int)
deriving DecidableEq

/-- `parseInt(order, 10)` on the three shapes an order value takes; `none`
models `NaN`. -/
def jsParseOrder : OrderVal → Option Int
  | .missing => none
  | .str s => jsParseIntStr s
  | .num n => some n

/-- `BandDatabase.getNextGalleryOrder`: `(row?.maxOrder || 0) + 1` over
`SELECT MAX(order_num) FROM gallery` (SQL `MAX` of an empty table is `NULL`,
which `|| 0` turns into 0). -/
def getNextGalleryOrder (t : List GalleryRow) : Int :=
  ((t.map (fun r => r.orderNum)).max?.getD 0) + 1

/-- `BandDatabase.normalizeOrderValue`: a finite parse result greater than
zero is kept; anything else falls back to `getNextGalleryOrder`. -/
def normalizeOrderValue (t : List GalleryRow) (o : OrderVal) : Int :=
  match jsParseOrder o with
  | none => getNextGalleryOrder t
  | some n => if n ≤ 0 then getNextGalleryOrder t else n

/-- The non-id columns handed to `addPhoto`/`updatePhoto`; `mediaType`,
`thumbnail` and `mimeType` carry the destructuring defaults `'photo'`,
`null`, `null` when absent. -/
structure PhotoFields where
  filename : String
  title : String
  description : String
  order : OrderVal
  mediaType : Option String
  thumbnail : Option String
  mimeType : Option String
deriving DecidableEq

/-- The full object handed to `addPhoto` (fields plus the client-generated
`id`). -/
structure PhotoData extends PhotoFields where
  id : String
deriving DecidableEq

/-- `BandDatabase.addPhoto`: computes the effective order, then inserts;
an existing row with the same `TEXT PRIMARY KEY` makes the insert throw a
constraint error. -/
def addPhoto (t : List GalleryRow) (p : PhotoData) (now : Nat) :
    Except Unit (List GalleryRow) :=
  let effectiveOrder := normalizeOrderValue t p.order
  if t.any (fun r => r.id == p.id) then .error ()
  else .ok (t ++ [{ id := p.id, filename := p.filename, title := p.title,
                    description := p.description, orderNum := effectiveOrder,
                    mediaType := p.mediaType.getD "photo",
                    thumbnail := p.thumbnail, mimeType := p.mimeType,
                    createdAt := now }])

/-- `BandDatabase.updatePhoto`: computes the effective order against the
pre-update table, then rewrites every column of the row matching `id`. -/
def updatePhoto (t : List GalleryRow) (id : String) (p : PhotoFields) :
    List GalleryRow :=
  let effectiveOrder := normalizeOrderValue t p.order
  t.map (fun r =>
    if r.id == id then
      { r with filename := p.filename, title := p.title,
               description := p.description, orderNum := effectiveOrder,
               mediaType := p.mediaType.getD "photo",
               thumbnail := p.thumbnail, mimeType := p.mimeType }
    else r)

/-- `BandDatabase.deletePhoto`: deletes the matching row, returns
`changes > 0`. -/
def deletePhotoRow (t : List GalleryRow) (id : String) :
    List GalleryRow × Bool :=
  (t.filter (fun r => !(r.id == id)), t.any (fun r => r.id == id))

/-- The comparison of `ORDER BY order_num ASC, created_at ASC`. -/
def photoRel (a b : GalleryRow) : Prop :=
  a.orderNum < b.orderNum ∨ (a.orderNum = b.orderNum ∧ a.createdAt ≤ b.createdAt)

instance (a b : GalleryRow) : Decidable (photoRel a b) := by
  unfold photoRel; exact inferInstance

instance : IsTotal GalleryRow photoRel := by
  refine ⟨fun a b => ?_⟩
  unfold photoRel
  omega

instance : IsTrans GalleryRow photoRel := by
  refine ⟨fun a b c hab hbc => ?_⟩
  unfold photoRel at *
  omega

/-- `SELECT * FROM gallery ORDER BY order_num ASC, created_at ASC` (a stable
sort by the two keys; ties beyond both keys have no specified order and are
kept in insertion order here). -/
def getGalleryPhotos (t : List GalleryRow) : List GalleryRow :=
  t.insertionSort photoRel

/-- The API-shaped photo object produced by `BandDatabase.getGallery`. -/
structure ApiPhoto where
  id : String
  filename : String
  title : String
  description : String
  order : Int
  mediaType : String
  thumbnail : Option String
  mimeType : Option String
deriving DecidableEq

/-- The row-to-object mapping inside `getGallery`; `mediaType` is
`photo.media_type || (photo.mime_type && photo.mime_type.startsWith('video')
? 'video' : 'photo')`. -/
def rowToPhoto (r : GalleryRow) : ApiPhoto :=
  { id := r.id, filename := r.filename, title := r.title,
    description := r.description, order := r.orderNum,
    mediaType :=
      if r.mediaType != "" then r.mediaType
      else if (match r.mimeType with
               | some m => (m != "") && strStartsWith m "video"
               | none => false) then "video" else "photo",
    thumbnail := r.thumbnail, mimeType := r.mimeType }

/-- The photo list served by `GET /api/gallery` and read by the admin
handlers. -/
def galleryPhotoObjects (t : List GalleryRow) : List ApiPhoto :=
  (getGalleryPhotos t).map rowToPhoto

/-!
## Reordering (`src/server.js` `POST /admin/reorder-photos`, lines 546-583)
-/

/-- `findIndex` bundled with the element found (the handler does
`photos.findIndex` and then reads `photos[photoIndex]` via `splice`). -/
def findWithIdx (p : α → Bool) : List α → Option (Nat × α)
  | [] => none
  | x :: xs => if p x then some (0, x) else (findWithIdx p xs).map (fun q => (q.1 + 1, q.2))

/-- `photos.splice(i, 1)`: removal at an index. -/
def spliceOut : List α → Nat → List α
  | [], _ => []
  | _ :: xs, 0 => xs
  | x :: xs, n + 1 => x :: spliceOut xs n

/-- `photos.splice(target, 0, photo)` for a non-negative target: insertion at
an index, clamped to the end of the list as `splice` does. -/
def spliceInsert (a : α) : List α → Nat → List α
  | xs, 0 => a :: xs
  | [], _ + 1 => [a]
  | x :: xs, n + 1 => x :: spliceInsert a xs n

/-- One iteration of the reorder write-back loop: `db.updatePhoto(p.id,
{filename, title, description, order: i + 1, mediaType, thumbnail,
mimeType})`. -/
def reorderUpdateFields (p : ApiPhoto) (i : Nat) : PhotoFields :=
  { filename := p.filename, title := p.title, description := p.description,
    order := .num ((i : Int) + 1), mediaType := some p.mediaType,
    thumbnail := p.thumbnail, mimeType := p.mimeType }

/-- The reorder write-back loop over the spliced list, with `i` the 0-based
loop index. -/
def applyReorderUpdates (t : List GalleryRow) : List ApiPhoto → Nat → List GalleryRow
  | [], _ => t
  | p :: ps, i => applyReorderUpdates (updatePhoto t p.id (reorderUpdateFields p i)) ps (i + 1)

/-- The store transition of `POST /admin/reorder-photos`: read the ordered
photo objects, locate the item, splice it to `targetIndex`, rewrite every
order field; `false` models the 404 for an unknown id. -/
def reorderPhotosTable (t : List GalleryRow) (photoId : String) (targetIndex : Nat) :
    List GalleryRow × Bool :=
  let photos := galleryPhotoObjects t
  match findWithIdx (fun p => p.id == photoId) photos with
  | none => (t, false)
  | some (i, photo) =>
      let rest := spliceOut photos i
      let newList := spliceInsert photo rest targetIndex
      (applyReorderUpdates t newList 0, true)

/-!
## Upload insert retry (`src/server.js` `POST /admin/add-photo`, lines 629-637)
-/

/-- Failure modes of one `stmt.run` insert: the unique-constraint throw from
a colliding `TEXT PRIMARY KEY`, or any other storage failure (disk I/O and
similar), which the embedding injects through an explicit fault flag. -/
inductive InsErr where
  | pkConflict
  | ioError
deriving DecidableEq

/-- One attempt at `db.addPhoto(newPhoto)`: an injected environment fault
makes the statement throw; otherwise the insert succeeds unless the id
collides. -/
def attemptInsert (fault : Bool) (t : List GalleryRow) (p : PhotoData) (now : Nat) :
    Except InsErr (List GalleryRow) :=
  if fault then .error .ioError
  else
    match addPhoto t p now with
    | .error _ => .error .pkConflict
    | .ok t2 => .ok t2

/-- Result of the try/catch insert block: the resulting table, the photo
object as finally used (its `id` is mutated before a retry), whether the
block completed without throwing, and how many insert attempts ran. -/
structure InsertOutcome where
  gallery : List GalleryRow
  photo : PhotoData
  success : Bool
  attempts : Nat
deriving DecidableEq

/-- The retry block: `try { db.addPhoto(newPhoto) } catch { newPhoto.id =
generateId(); db.addPhoto(newPhoto) }` — the catch is indiscriminate, so any
first-attempt failure leads to exactly one retry under a fresh id; a failure
of the retry escapes to the outer handler catch. -/
def insertWithRetry (t : List GalleryRow) (p : PhotoData) (freshId : String)
    (fault1 fault2 : Bool) (now : Nat) : InsertOutcome :=
  match attemptInsert fault1 t p now with
  | .ok t2 => { gallery := t2, photo := p, success := true, attempts := 1 }
  | .error _ =>
      let p2 := { p with id := freshId }
      match attemptInsert fault2 t p2 now with
      | .ok t2 => { gallery := t2, photo := p2, success := true, attempts := 2 }
      | .error _ => { gallery := t, photo := p2, success := false, attempts := 2 }

/-!
## Access-control gate (`src/server.js` lines 77-89) and admin page gate
(lines 215-231)
-/

/-- `!ADMIN_PASSWORD`: the configured secret is falsy (env var unset, or set
to the empty string). -/
def pwFalsy : Option String → Bool
  | none => true
  | some s => s == ""

/-- Outcome of the `requireAuth` middleware. -/
inductive AuthResult where
  | misconfigured
  | unauthorized
  | ok
deriving DecidableEq

/-- `requireAuth`: a falsy secret yields the 500 configuration error; then a
missing `Authorization` header, or one differing from `Bearer <secret>`,
yields 401; otherwise the handler runs. -/
def requireAuth (pw : Option String) (hdr : Option String) : AuthResult :=
  match pw with
  | none => .misconfigured
  | some s =>
      if s == "" then .misconfigured
      else
        match hdr with
        | none => .unauthorized
        | some h => if h == "Bearer " ++ s then .ok else .unauthorized

/-- Outcome of `GET /admin`. -/
inductive AdminResp where
  | accessDenied
  | servePage
deriving DecidableEq

/-- JavaScript strict equality between two possibly-undefined strings. -/
def jsStrictEq : Option String → Option String → Bool
  | none, none => true
  | some a, some b => a == b
  | _, _ => false

/-- `GET /admin`: `if (password !== ADMIN_PASSWORD) return 401 page;
res.sendFile('admin.html')`. -/
def getAdmin (pw : Option String) (queryPassword : Option String) : AdminResp :=
  if !(jsStrictEq queryPassword pw) then .accessDenied else .servePage

/-!
## API surface: the mutating endpoints behind `requireAuth`
-/

/-- The whole mutable state a request can touch: the four store tables, the
media directory and the backups directory. -/
structure Store where
  tours : ToursState
  countdown : List CountdownRow
  gallery : List GalleryRow
  galleryEnabled : Option Bool
  mediaFiles : List String
  backups : List Nat
deriving DecidableEq

/-- The state of a freshly initialized deployment (empty database, empty
media and backups directories). -/
def emptyStore : Store :=
  { tours := { rows := [], seq := 0 }, countdown := [], gallery := [],
    galleryEnabled := none, mediaFiles := [], backups := [] }

/-- Responses of the mutating endpoints (constructors record HTTP status and
payload shape; messages are the source strings). -/
inductive Resp where
  | misconfigured
  | unauthorized
  | badRequest (msg : String)
  | notFound (msg : String)
  | serverError (msg : String)
  | tourCreated (id : Int) (date city venue ticketLink : String)
  | tourUpdated (id : Int) (date city venue ticketLink : String)
  | tourDeleted
  | countdownSaved (c : Option CountdownRow)
  | photoUploaded (p : PhotoData)
  | photoDeleted
  | reordered
  | backupCreated (timestamp : Nat)
deriving DecidableEq

/-- `POST /api/tours` body handling after authentication: validate, then
sanitize city, venue and `ticketLink || ''` (date is passed through raw) and
insert. -/
def postToursHandler (st : Store) (b : TourBody) (now : Nat) : Store × Resp :=
  match validateTourData b with
  | some msg => (st, .badRequest msg)
  | none =>
      let date := b.date.asStr
      let city := sanitizeString b.city 200
      let venue := sanitizeString b.venue 200
      let ticketLink := sanitizeString (jsOrVal b.ticketLink (.str "")) 200
      let res := st.tours.addTour date city venue ticketLink now
      ({ st with tours := res.1 }, .tourCreated res.2 date city venue ticketLink)

/-- `PUT /api/tours/:id` after authentication: parse the id, validate,
sanitize, update. -/
def putTourHandler (st : Store) (idParam : String) (b : TourBody) (now : Nat) :
    Store × Resp :=
  match jsParseIntStr idParam with
  | none => (st, .badRequest "Invalid tour ID")
  | some tourId =>
      match validateTourData b with
      | some msg => (st, .badRequest msg)
      | none =>
          let date := b.date.asStr
          let city := sanitizeString b.city 200
          let venue := sanitizeString b.venue 200
          let ticketLink := sanitizeString (jsOrVal b.ticketLink (.str "")) 200
          let res := st.tours.updateTour tourId date city venue ticketLink now
          if res.2 then
            ({ st with tours := res.1 }, .tourUpdated tourId date city venue ticketLink)
          else (st, .notFound "Tour not found")

/-- `DELETE /api/tours/:id` after authentication. -/
def deleteTourHandler (st : Store) (idParam : String) : Store × Resp :=
  match jsParseIntStr idParam with
  | none => (st, .badRequest "Invalid tour ID")
  | some tourId =>
      let res := st.tours.deleteTour tourId
      if res.2 then ({ st with tours := res.1 }, .tourDeleted)
      else (st, .notFound "Tour not found")

/-- A `POST /api/countdown` request body (the six destructured properties). -/
structure CountdownBody where
  title : JsVal
  description : JsVal
  releaseDate : Option String
  enabled : JsVal
  completedTitle : JsVal
  completedDescription : JsVal
deriving DecidableEq

/-- `POST /api/countdown` after authentication: sanitize the four text
fields, coerce `enabled` with `Boolean(...)`, pass `releaseDate` through,
and hand the object (with no `preReleaseMessage` property) to
`updateCountdown`. -/
def postCountdownHandler (st : Store) (b : CountdownBody) (now : Nat) :
    Store × Resp :=
  let countdownData : CountdownData :=
    { title := some (sanitizeString b.title 200),
      description := some (sanitizeString b.description 200),
      releaseDate := b.releaseDate,
      enabled := b.enabled.truthy,
      completedTitle := some (sanitizeString b.completedTitle 200),
      completedDescription := some (sanitizeString b.completedDescription 200),
      preReleaseMessage := none }
  let res := updateCountdown st.countdown countdownData now
  ({ st with countdown := res.1 }, .countdownSaved res.2)

/-- `POST /api/backup` after authentication: `db.createBackup()` copies the
database file to a timestamped path under `./backups` (paths are modelled by
their timestamps). -/
def postBackupHandler (st : Store) (now : Nat) : Store × Resp :=
  ({ st with backups := st.backups ++ [now] }, .backupCreated now)

/-- `DELETE /admin/delete-photo` after authentication: look the item up in
the ordered read, delete the row, then best-effort unlink the file and (when
distinct) the thumbnail; unlink failures are tolerated (`List.erase` of an
absent name is a no-op). -/
def deletePhotoHandler (st : Store) (photoId : String) : Store × Resp :=
  match (galleryPhotoObjects st.gallery).find? (fun p => p.id == photoId) with
  | none => (st, .notFound "Media item not found")
  | some photo =>
      let res := deletePhotoRow st.gallery photoId
      if res.2 then
        let files1 := st.mediaFiles.erase photo.filename
        let files2 :=
          match photo.thumbnail with
          | some tn => if tn != "" && tn != photo.filename then files1.erase tn else files1
          | none => files1
        ({ st with gallery := res.1, mediaFiles := files2 }, .photoDeleted)
      else (st, .notFound "Media item not found in database")

/-- `POST /admin/reorder-photos` after authentication. -/
def reorderPhotosHandler (st : Store) (photoId : String) (targetIndex : Nat) :
    Store × Resp :=
  let res := reorderPhotosTable st.gallery photoId targetIndex
  if res.2 then ({ st with gallery := res.1 }, .reordered)
  else (st, .notFound "Media item not found")

/-- An uploaded part as multer hands it to the handler. -/
structure UploadFile where
  filename : String
  originalname : String
  mimetype : String
deriving DecidableEq

/-- A `POST /admin/add-photo` multipart request, together with the
environment choices the handler consumes: the two `generateId()` results and
the injected storage-fault flags of the two possible insert attempts. -/
structure UploadReq where
  media : Option UploadFile
  thumbnailFile : Option UploadFile
  title : Option String
  description : Option String
  order : Option String
  mediaType : Option String
  genId1 : String
  genId2 : String
  ioFault1 : Bool
  ioFault2 : Bool
deriving DecidableEq

/-- JavaScript `o || d` for an optional string against a string default. -/
def jsStrOr (o : Option String) (d : String) : String :=
  match o with
  | some s => if s == "" then d else s
  | none => d

/-- `POST /admin/add-photo`: the `handleMediaUpload` middleware enforces the
content-type filter and writes the accepted files, then the handler builds
`newPhoto` (falling back to `getNextGalleryOrder` when the order field is
absent, non-numeric or 0) and runs the insert-with-retry block. -/
def addPhotoHandler (st : Store) (u : UploadReq) (now : Nat) : Store × Resp :=
  if (match u.media with
      | some f => !(strStartsWith f.mimetype "image/" || strStartsWith f.mimetype "video/")
      | none => false) then
    (st, .badRequest "Unsupported media type. Please upload images or videos only.")
  else if (match u.thumbnailFile with
           | some f => !(strStartsWith f.mimetype "image/")
           | none => false) then
    (st, .badRequest "Thumbnail must be an image file.")
  else
    let written := (match u.media with | some f => [f.filename] | none => []) ++
                   (match u.thumbnailFile with | some f => [f.filename] | none => [])
    let st1 := { st with mediaFiles := st.mediaFiles ++ written }
    match u.media with
    | none => (st1, .badRequest "No media file uploaded")
    | some mf =>
        let mt := if jsToLower (jsStrOrEmpty u.mediaType) == "video"
                     || strStartsWith mf.mimetype "video/" then "video" else "photo"
        let th0 := u.thumbnailFile.map (fun f => f.filename)
        let th := match th0 with
                  | none => if mt == "photo" then some mf.filename else none
                  | some t => some t
        let parsedOrder := match u.order with
                           | some s => jsParseIntStr s
                           | none => none
        let fixedOrder : Int := match parsedOrder with
                                | some n => if n = 0 then getNextGalleryOrder st1.gallery else n
                                | none => getNextGalleryOrder st1.gallery
        let newPhoto : PhotoData :=
          { id := u.genId1, filename := mf.filename,
            title := jsStrOr u.title mf.originalname,
            description := jsStrOr u.description "",
            order := .num fixedOrder, mediaType := some mt,
            thumbnail := th, mimeType := some mf.mimetype }
        let outcome := insertWithRetry st1.gallery newPhoto u.genId2 u.ioFault1 u.ioFault2 now
        if outcome.success then
          ({ st1 with gallery := outcome.gallery }, .photoUploaded outcome.photo)
        else (st1, .serverError "Error uploading media")

/-- The mutating endpoints of the REST surface (spec section 6), all of which
are registered behind `requireAuth`. -/
inductive MutReq where
  | postTours (b : TourBody)
  | putTour (idParam : String) (b : TourBody)
  | delTour (idParam : String)
  | postCountdown (b : CountdownBody)
  | postBackup
  | addPhotoUpload (u : UploadReq)
  | delPhoto (photoId : String)
  | reorderReq (photoId : String) (targetIndex : Nat)
deriving DecidableEq

/-- Dispatch of one mutating request: the `requireAuth` middleware runs
first, so a refused request never reaches a handler; the configuration error
carries status 500 and the credential failure status 401. -/
def serveMutating (pw hdr : Option String) (now : Nat) (st : Store) (req : MutReq) :
    Store × Resp :=
  match requireAuth pw hdr with
  | .misconfigured => (st, .misconfigured)
  | .unauthorized => (st, .unauthorized)
  | .ok =>
      match req with
      | .postTours b => postToursHandler st b now
      | .putTour idParam b => putTourHandler st idParam b now
      | .delTour idParam => deleteTourHandler st idParam
      | .postCountdown b => postCountdownHandler st b now
      | .postBackup => postBackupHandler st now
      | .addPhotoUpload u => addPhotoHandler st u now
      | .delPhoto photoId => deletePhotoHandler st photoId
      | .reorderReq photoId targetIndex => reorderPhotosHandler st photoId targetIndex

/-!
## Helper lemmas
-/

/-- A credential that is missing or does not encode the configured secret. -/
def badCredential (pw hdr : Option String) : Prop :=
  ∀ s, pw = some s → hdr ≠ some ("Bearer " ++ s)

theorem requireAuth_misconfigured {pw hdr : Option String} (h : pwFalsy pw = true) :
    requireAuth pw hdr = .misconfigured := by
  cases pw with
  | none => rfl
  | some s =>
      simp only [pwFalsy, beq_iff_eq] at h
      simp [requireAuth, h]

theorem requireAuth_unauthorized {pw hdr : Option String} (h : pwFalsy pw = false)
    (hbad : badCredential pw hdr) : requireAuth pw hdr = .unauthorized := by
  cases pw with
  | none => simp [pwFalsy] at h
  | some s =>
      simp only [pwFalsy, beq_eq_false_iff_ne, ne_eq] at h
      cases hdr with
      | none => simp [requireAuth, h]
      | some v =>
          have hv : v ≠ "Bearer " ++ s := fun he => hbad s rfl (by rw [he])
          simp [requireAuth, h, hv]

theorem serveMutating_postTours_ok {pw hdr : Option String} {now : Nat} {st : Store}
    {b : TourBody} (h : requireAuth pw hdr = .ok) :
    serveMutating pw hdr now st (.postTours b) = postToursHandler st b now := by
  unfold serveMutating
  rw [h]

theorem serveMutating_postCountdown_ok {pw hdr : Option String} {now : Nat} {st : Store}
    {b : CountdownBody} (h : requireAuth pw hdr = .ok) :
    serveMutating pw hdr now st (.postCountdown b) = postCountdownHandler st b now := by
  unfold serveMutating
  rw [h]

theorem filter_not_id_one_eq_nil {t : List CountdownRow} (h : ∀ r ∈ t, r.id = 1) :
    t.filter (fun r => !(r.id == 1)) = [] := by
  induction t with
  | nil => rfl
  | cons r rs ih =>
      have hr : r.id = 1 := h r (List.mem_cons_self r rs)
      have : ((fun r : CountdownRow => !(r.id == 1)) r) = false := by
        simp [hr]
      simp only [List.filter_cons, this, Bool.false_eq_true, if_false]
      exact ih (fun x hx => h x (List.mem_cons_of_mem r hx))

theorem updateCountdown_collapses {t : List CountdownRow} (h : ∀ r ∈ t, r.id = 1)
    (d : CountdownData) (now : Nat) :
    (updateCountdown t d now).1 = [countdownRowOf d now] := by
  unfold updateCountdown
  rw [filter_not_id_one_eq_nil h]
  rfl

theorem getCountdown_singleton (d : CountdownData) (now : Nat) :
    getCountdown [countdownRowOf d now] = some (countdownRowOf d now) := by
  simp [getCountdown, countdownRowOf, List.find?]

theorem applyCountdownWrites_append (t : List CountdownRow)
    (ds₁ ds₂ : List (CountdownData × Nat)) :
    applyCountdownWrites t (ds₁ ++ ds₂) =
      applyCountdownWrites (applyCountdownWrites t ds₁) ds₂ := by
  induction ds₁ generalizing t with
  | nil => rfl
  | cons p ds ih =>
      obtain ⟨d, now⟩ := p
      simp only [List.cons_append, applyCountdownWrites]
      exact ih _

theorem applyCountdownWrites_all_id_one {t : List CountdownRow}
    (h : ∀ r ∈ t, r.id = 1) (ds : List (CountdownData × Nat)) :
    ∀ r ∈ applyCountdownWrites t ds, r.id = 1 := by
  induction ds generalizing t with
  | nil => exact h
  | cons p ds ih =>
      obtain ⟨d, now⟩ := p
      refine ih (fun r hr => ?_)
      rw [updateCountdown_collapses h] at hr
      rcases List.mem_singleton.mp hr with rfl
      rfl

/-!
## Claim theorems
-/

/-- C10: when no admin password is configured, a `GET /admin` request with no
password query parameter is served the admin page: `password !==
ADMIN_PASSWORD` compares `undefined` with `undefined`, finds them strictly
equal, and falls through to `res.sendFile('admin.html')`. -/
theorem admin_page_open_when_unconfigured : getAdmin none none = AdminResp.servePage := rfl

/-- C1: for every mutating endpoint request, an unconfigured (falsy) shared
secret is refused with the distinct 500 server-misconfigured response, and a
missing or wrong `Authorization` credential is refused with the 401
authorization failure; in both cases the store, the media directory and the
backups directory are exactly as before the request. -/
theorem auth_gate_fail_closed (pw hdr : Option String) (now : Nat) (st : Store)
    (req : MutReq) :
    (pwFalsy pw = true →
       serveMutating pw hdr now st req = (st, Resp.misconfigured)) ∧
    (pwFalsy pw = false → badCredential pw hdr →
       serveMutating pw hdr now st req = (st, Resp.unauthorized)) := by
  constructor
  · intro h
    unfold serveMutating
    rw [requireAuth_misconfigured h]
  · intro h hbad
    unfold serveMutating
    rw [requireAuth_unauthorized h hbad]

/-- C1 witness: a concrete misconfigured refusal and a concrete
wrong-credential refusal, both leaving the fresh store untouched. -/
theorem auth_gate_fail_closed_witness :
    serveMutating none (some "Bearer x") 0 emptyStore
        (.postTours ⟨.undef, .undef, .undef, .undef⟩) = (emptyStore, Resp.misconfigured) ∧
    serveMutating (some "secret") (some "Bearer wrong") 0 emptyStore
        (.delTour "1") = (emptyStore, Resp.unauthorized) :=
  ⟨(auth_gate_fail_closed none (some "Bearer x") 0 emptyStore
      (.postTours ⟨.undef, .undef, .undef, .undef⟩)).1 rfl,
   (auth_gate_fail_closed (some "secret") (some "Bearer wrong") 0 emptyStore
      (.delTour "1")).2 (by decide)
      (fun s hs => by cases hs; decide)⟩

/-- C3: starting from any well-formed countdown table (every row carries the
fixed key 1) and any non-empty sequence of `updateCountdown` calls, the table
holds exactly one row — the full replacement written by the last call — and
`getCountdown` reads back exactly that record. -/
theorem countdown_singleton_upsert (t : List CountdownRow)
    (h : ∀ r ∈ t, r.id = 1) (ds : List (CountdownData × Nat))
    (d : CountdownData) (now : Nat) :
    applyCountdownWrites t (ds ++ [(d, now)]) = [countdownRowOf d now] ∧
    getCountdown (applyCountdownWrites t (ds ++ [(d, now)])) =
      some (countdownRowOf d now) := by
  have hmid : ∀ r ∈ applyCountdownWrites t ds, r.id = 1 :=
    applyCountdownWrites_all_id_one h ds
  have hfinal : applyCountdownWrites t (ds ++ [(d, now)]) = [countdownRowOf d now] := by
    rw [applyCountdownWrites_append]
    show applyCountdownWrites (updateCountdown _ d now).1 [] = _
    rw [updateCountdown_collapses hmid]
    rfl
  exact ⟨hfinal, by rw [hfinal]; exact getCountdown_singleton d now⟩

/-- Countdown write used by the C3 witness. -/
def countdownDataW : CountdownData :=
  { title := some "T", description := none, releaseDate := some "2025-12-31",
    enabled := true, completedTitle := none, completedDescription := none,
    preReleaseMessage := none }

/-- C3 witness: one concrete upsert on the empty table yields exactly the
one written record. -/
theorem countdown_singleton_upsert_witness :
    applyCountdownWrites [] [(countdownDataW, 3)] = [countdownRowOf countdownDataW 3] :=
  (countdown_singleton_upsert [] (fun r hr => absurd hr (List.not_mem_nil r)) []
    countdownDataW 3).1

/-!
## Tour identifier assignment (claim C8)
-/

/-- One store-level tour operation. -/
inductive TourOp where
  | add (date city venue ticketLink : String) (now : Nat)
  | upd (id : Int) (date city venue ticketLink : String) (now : Nat)
  | del (id : Int)
deriving DecidableEq

/-- Runs a sequence of tour operations and collects, in call order, the
identifiers the `addTour` calls return. -/
def runTourOps (s : ToursState) : List TourOp → ToursState × List Int
  | [] => (s, [])
  | .add d c v l now :: ops =>
      let r := s.addTour d c v l now
      let rest := runTourOps r.1 ops
      (rest.1, r.2 :: rest.2)
  | .upd id d c v l now :: ops => runTourOps (s.updateTour id d c v l now).1 ops
  | .del id :: ops => runTourOps (s.deleteTour id).1 ops

theorem runTourOps_ids_gt_seq (ops : List TourOp) :
    ∀ (s : ToursState), ∀ i ∈ (runTourOps s ops).2, s.seq < i := by
  induction ops with
  | nil => intro s i hi; cases hi
  | cons op ops ih =>
      intro s i hi
      cases op with
      | add d c v l now =>
          simp only [runTourOps, List.mem_cons] at hi
          rcases hi with rfl | hi
          · exact lt_add_one s.seq
          · have h := ih _ i hi
            change s.seq + 1 < i at h
            omega
      | upd id d c v l now =>
          simp only [runTourOps] at hi
          exact ih (s.updateTour id d c v l now).1 i hi
      | del id =>
          simp only [runTourOps] at hi
          exact ih (s.deleteTour id).1 i hi

/-- C8: across any sequence of store operations, the identifiers returned by
the `addTour` calls are strictly increasing in call order (the
`AUTOINCREMENT` sequence only ever moves up, and deletes do not reset it),
hence pairwise distinct. -/
theorem addTour_ids_strictly_increasing (s : ToursState) (ops : List TourOp) :
    ((runTourOps s ops).2).Pairwise (· < ·) ∧ ((runTourOps s ops).2).Nodup := by
  have hpair : ((runTourOps s ops).2).Pairwise (· < ·) := by
    induction ops generalizing s with
    | nil => exact List.Pairwise.nil
    | cons op ops ih =>
        cases op with
        | add d c v l now =>
            simp only [runTourOps]
            exact List.Pairwise.cons
              (fun j hj => by
                have h := runTourOps_ids_gt_seq ops _ j hj
                change s.seq + 1 < j at h
                show s.seq + 1 < j
                omega)
              (ih _)
        | upd id d c v l now =>
            simp only [runTourOps]
            exact ih _
        | del id =>
            simp only [runTourOps]
            exact ih _
  exact ⟨hpair, hpair.imp ne_of_lt⟩

/-!
## Tour validation (claim C2)
-/

/-- The pass condition of claim C2 exactly as stated (spec wording): date,
city and venue are strings that are non-empty after trimming, city is at
most 100 characters and venue at most 200 — with no condition on the length
of date. -/
def claimTourPassOriginal (b : TourBody) : Prop :=
  (∃ s, b.date = .str s ∧ jsTrim s ≠ "") ∧
  (∃ s, b.city = .str s ∧ jsTrim s ≠ "") ∧
  (∃ s, b.venue = .str s ∧ jsTrim s ≠ "") ∧
  (∀ s, b.city = .str s → s.length ≤ 100) ∧
  (∀ s, b.venue = .str s → s.length ≤ 200)

/-- The amended pass condition: the code additionally rejects a date longer
than 50 characters. -/
def claimTourPassAmended (b : TourBody) : Prop :=
  claimTourPassOriginal b ∧ (∀ s, b.date = .str s → s.length ≤ 50)

theorem requiredOk_true_iff (v : JsVal) :
    requiredOk v = true ↔ ∃ s, v = .str s ∧ jsTrim s ≠ "" := by
  cases v with
  | str s =>
      simp only [requiredOk, Bool.and_eq_true, bne_iff_ne, ne_eq]
      constructor
      · rintro ⟨-, h2⟩
        exact ⟨s, rfl, h2⟩
      · rintro ⟨s', hs, h2⟩
        rw [JsVal.str.injEq] at hs
        subst hs
        refine ⟨fun he => h2 ?_, h2⟩
        subst he
        rfl
  | undef =>
      constructor
      · intro h
        simp [requiredOk] at h
      · rintro ⟨s, hs, -⟩
        cases hs
  | boolVal c =>
      constructor
      · intro h
        simp [requiredOk] at h
      · rintro ⟨s, hs, -⟩
        cases hs
  | numVal n =>
      constructor
      · intro h
        simp [requiredOk] at h
      · rintro ⟨s, hs, -⟩
        cases hs

theorem lengthTooLong_str_iff (s : String) (n : Nat) :
    lengthTooLong (.str s) n = true ↔ (s ≠ "" ∧ n < s.length) := by
  simp [lengthTooLong, bne_iff_ne]

theorem lengthTooLong_false_iff (v : JsVal) (n : Nat) :
    lengthTooLong v n = false ↔ (∀ s, v = .str s → s.length ≤ n) := by
  cases v with
  | str s =>
      rw [← Bool.not_eq_true, lengthTooLong_str_iff]
      constructor
      · intro h s' hs
        rw [JsVal.str.injEq] at hs
        subst hs
        by_cases he : s = ""
        · subst he
          simp
        · exact le_of_not_lt fun hlt => h ⟨he, hlt⟩
      · rintro h ⟨he, hlt⟩
        exact absurd (h s rfl) (not_le_of_lt hlt)
  | undef => simp [lengthTooLong]
  | boolVal c => simp [lengthTooLong]
  | numVal m => simp [lengthTooLong]

theorem validateTourData_none_iff (b : TourBody) :
    validateTourData b = none ↔ claimTourPassAmended b := by
  have hchain : validateTourData b = none ↔
      (requiredOk b.date = true ∧ requiredOk b.city = true ∧ requiredOk b.venue = true ∧
       lengthTooLong b.city 100 = false ∧ lengthTooLong b.venue 200 = false ∧
       lengthTooLong b.date 50 = false) := by
    unfold validateTourData
    by_cases h1 : requiredOk b.date = true <;> by_cases h2 : requiredOk b.city = true <;>
      by_cases h3 : requiredOk b.venue = true <;>
      by_cases h4 : lengthTooLong b.city 100 = true <;>
      by_cases h5 : lengthTooLong b.venue 200 = true <;>
      by_cases h6 : lengthTooLong b.date 50 = true <;>
      simp_all
  rw [hchain]
  unfold claimTourPassAmended claimTourPassOriginal
  rw [requiredOk_true_iff, requiredOk_true_iff, requiredOk_true_iff,
      lengthTooLong_false_iff, lengthTooLong_false_iff, lengthTooLong_false_iff]
  tauto

theorem validateTourData_some_cases (b : TourBody) (m : String)
    (h : validateTourData b = some m) :
    ∃ f : TourField, (m = requiredMsg f ∧ requiredOk (b.proj f) = false) ∨
      (m = tooLongMsg f ∧ lengthTooLong (b.proj f) f.maxLen = true) := by
  unfold validateTourData at h
  split at h
  next hc =>
    exact ⟨.date, Or.inl ⟨(Option.some.inj h).symm, by simpa using hc⟩⟩
  next =>
  split at h
  next hc =>
    exact ⟨.city, Or.inl ⟨(Option.some.inj h).symm, by simpa using hc⟩⟩
  next =>
  split at h
  next hc =>
    exact ⟨.venue, Or.inl ⟨(Option.some.inj h).symm, by simpa using hc⟩⟩
  next =>
  split at h
  next hc =>
    exact ⟨.city, Or.inr ⟨(Option.some.inj h).symm, hc⟩⟩
  next =>
  split at h
  next hc =>
    exact ⟨.venue, Or.inr ⟨(Option.some.inj h).symm, hc⟩⟩
  next =>
  split at h
  next hc =>
    exact ⟨.date, Or.inr ⟨(Option.some.inj h).symm, hc⟩⟩
  next => cases h

/-- C2 (amended): tour validation passes exactly when date, city and venue
are strings non-empty after trimming with city at most 100, venue at most
200 and — the amendment the code forces — date at most 50 characters; every
failure message names the failing field and its violated condition, and a
failing `POST /api/tours` returns the 400 validation error and leaves the
store untouched. -/
theorem tour_validation_contract (b : TourBody) :
    (validateTourData b = none ↔ claimTourPassAmended b) ∧
    (∀ m, validateTourData b = some m →
      ∃ f : TourField, (m = requiredMsg f ∧ requiredOk (b.proj f) = false) ∨
        (m = tooLongMsg f ∧ lengthTooLong (b.proj f) f.maxLen = true)) ∧
    (∀ (pw hdr : Option String) (now : Nat) (st : Store) (m : String),
      requireAuth pw hdr = .ok → validateTourData b = some m →
      serveMutating pw hdr now st (.postTours b) = (st, .badRequest m)) := by
  refine ⟨validateTourData_none_iff b, validateTourData_some_cases b, ?_⟩
  intro pw hdr now st m hauth hval
  rw [serveMutating_postTours_ok hauth]
  unfold postToursHandler
  rw [hval]

/-- The body of claim C2's counterexample: a 51-character date with valid
city and venue. -/
def longDateBody : TourBody :=
  { date := .str (String.mk (List.replicate 51 'a')), city := .str "Barcelona",
    venue := .str "Sala Apolo", ticketLink := .undef }

/-- C2 counterexample: this body satisfies every condition the claim lists
for acceptance (date, city, venue non-empty strings; city ≤ 100; venue ≤
200), yet `validateTourData` rejects it, naming the date field — the code
also enforces a 50-character cap on date. -/
theorem tour_validation_rejects_claimed_pass_input :
    claimTourPassOriginal longDateBody ∧
    validateTourData longDateBody = some (tooLongMsg .date) := by
  constructor
  · refine ⟨⟨_, rfl, by decide⟩, ⟨_, rfl, by decide⟩, ⟨_, rfl, by decide⟩, ?_, ?_⟩ <;>
      (intro s hs; simp only [longDateBody, JsVal.str.injEq] at hs; subst hs; decide)
  · decide

/-!
## Countdown write-through (claim C4)
-/

theorem find?_append_singleton {α} (p : α → Bool) (l : List α) (x : α)
    (h : ∀ r ∈ l, p r = false) (hx : p x = true) :
    (l ++ [x]).find? p = some x := by
  induction l with
  | nil => simp [List.find?, hx]
  | cons a as ih =>
      have ha : p a = false := h a (List.mem_cons_self a as)
      simp only [List.cons_append, List.find?, ha]
      exact ih (fun r hr => h r (List.mem_cons_of_mem a hr))

theorem updateCountdown_read (t : List CountdownRow) (d : CountdownData) (now : Nat) :
    getCountdown (updateCountdown t d now).1 = some (countdownRowOf d now) := by
  unfold updateCountdown getCountdown
  apply find?_append_singleton
  · intro r hr
    have := List.of_mem_filter hr
    simpa using this
  · rfl

theorem updateCountdown_ret (t : List CountdownRow) (d : CountdownData) (now : Nat) :
    (updateCountdown t d now).2 = some (countdownRowOf d now) :=
  updateCountdown_read t d now

/-- The countdown row stored by `POST /api/countdown` for a body `b`: every
field the body omits is written as its default (`''`, `false`), with no
lookup of the previously stored configuration. -/
def storedCountdownOf (b : CountdownBody) (now : Nat) : CountdownRow :=
  { id := 1, title := sanitizeString b.title 200,
    description := sanitizeString b.description 200,
    releaseDate := jsStrOrEmpty b.releaseDate, enabled := b.enabled.truthy,
    completedTitle := sanitizeString b.completedTitle 200,
    completedDescription := sanitizeString b.completedDescription 200,
    preReleaseMessage := "", updatedAt := now }

/-- C4 (amended): `POST /api/countdown` does not merge with the stored
configuration — the configuration read back after an authenticated write is
a function of the request body alone, so every omitted field is reset to its
default (`''` for the text fields and the release date, `false` for
enabled) instead of retaining its previous value. -/
theorem countdown_post_overwrites (pw hdr : Option String) (now : Nat) (st : Store)
    (b : CountdownBody) (hauth : requireAuth pw hdr = .ok) :
    getCountdown (serveMutating pw hdr now st (.postCountdown b)).1.countdown =
      some (storedCountdownOf b now) ∧
    (serveMutating pw hdr now st (.postCountdown b)).2 =
      .countdownSaved (some (storedCountdownOf b now)) := by
  rw [serveMutating_postCountdown_ok hauth]
  unfold postCountdownHandler
  constructor
  · exact updateCountdown_read st.countdown _ now
  · show Resp.countdownSaved (updateCountdown st.countdown _ now).2 = _
    rw [updateCountdown_ret st.countdown _ now]
    rfl

/-- A previously saved countdown row whose description is `Old`. -/
def countdownRowOld : CountdownRow :=
  { id := 1, title := "T0", description := "Old", releaseDate := "2025-12-31",
    enabled := true, completedTitle := "CT", completedDescription := "CD",
    preReleaseMessage := "", updatedAt := 0 }

/-- Store holding `countdownRowOld`. -/
def countdownStoreOld : Store :=
  { emptyStore with countdown := [countdownRowOld] }

/-- A countdown body that supplies only `title`. -/
def countdownBodyOnlyTitle : CountdownBody :=
  { title := .str "New", description := .undef, releaseDate := none,
    enabled := .undef, completedTitle := .undef, completedDescription := .undef }

/-- C4 counterexample: with `Old` stored as the description, a `POST
/api/countdown` that supplies only `title` stores an empty description (and
title `New`) — the omitted field does not retain its previously stored
value, so the API layer performs no merge. -/
theorem countdown_post_merge_counterexample :
    Option.map (fun r => r.description) (getCountdown countdownStoreOld.countdown) =
      some "Old" ∧
    Option.map (fun r => r.description)
      (getCountdown (serveMutating (some "pw") (some "Bearer pw") 5 countdownStoreOld
        (.postCountdown countdownBodyOnlyTitle)).1.countdown) = some "" ∧
    Option.map (fun r => r.title)
      (getCountdown (serveMutating (some "pw") (some "Bearer pw") 5 countdownStoreOld
        (.postCountdown countdownBodyOnlyTitle)).1.countdown) = some "New" := by
  decide

/-- C4 witness: the amended theorem applied at the same concrete store and
partial body. -/
theorem countdown_post_overwrites_witness :
    getCountdown (serveMutating (some "pw") (some "Bearer pw") 5 countdownStoreOld
        (.postCountdown countdownBodyOnlyTitle)).1.countdown =
      some (storedCountdownOf countdownBodyOnlyTitle 5) :=
  (countdown_post_overwrites (some "pw") (some "Bearer pw") 5 countdownStoreOld
    countdownBodyOnlyTitle (by decide)).1

/-!
## Reordering (claim C6): generic list lemmas
-/

theorem findWithIdx_eq_some {α} (p : α → Bool) :
    ∀ (l : List α) (i : Nat) (x : α), findWithIdx p l = some (i, x) →
      ∃ l₁ l₂, l = l₁ ++ x :: l₂ ∧ l₁.length = i ∧ p x = true := by
  intro l
  induction l with
  | nil => intro i x h; cases h
  | cons a as ih =>
      intro i x h
      unfold findWithIdx at h
      cases hp : p a with
      | true =>
          rw [hp, if_pos rfl] at h
          have hix := Option.some.inj h
          have hi : 0 = i := congrArg Prod.fst hix
          have hx : a = x := congrArg Prod.snd hix
          subst hi
          subst hx
          exact ⟨[], as, rfl, rfl, hp⟩
      | false =>
          rw [hp] at h
          simp only [Bool.false_eq_true, if_false] at h
          obtain ⟨⟨i', x'⟩, hq, hmap⟩ := Option.map_eq_some'.mp h
          simp only at hmap
          have hi : i' + 1 = i := congrArg Prod.fst hmap
          have hx : x' = x := congrArg Prod.snd hmap
          subst hi
          subst hx
          obtain ⟨l₁, l₂, hdec, hlen, hpx⟩ := ih i' x' hq
          exact ⟨a :: l₁, l₂, by rw [hdec]; rfl, by simp [hlen], hpx⟩

theorem findWithIdx_isSome {α} (p : α → Bool) :
    ∀ (l : List α), (∃ x ∈ l, p x = true) → ∃ q, findWithIdx p l = some q := by
  intro l
  induction l with
  | nil => rintro ⟨x, hx, -⟩; cases hx
  | cons a as ih =>
      rintro ⟨x, hx, hpx⟩
      unfold findWithIdx
      cases hp : p a with
      | true => exact ⟨(0, a), by rw [if_pos rfl]⟩
      | false =>
          simp only [Bool.false_eq_true, if_false]
          have hxas : x ∈ as := by
            rcases List.mem_cons.mp hx with rfl | hxs
            · rw [hp] at hpx; cases hpx
            · exact hxs
          obtain ⟨q, hq⟩ := ih ⟨x, hxas, hpx⟩
          exact ⟨(q.1 + 1, q.2), by rw [hq]; rfl⟩

theorem spliceOut_append {α} : ∀ (l₁ : List α) (x : α) (l₂ : List α),
    spliceOut (l₁ ++ x :: l₂) l₁.length = l₁ ++ l₂ := by
  intro l₁
  induction l₁ with
  | nil => intro x l₂; rfl
  | cons a l₁ ih => intro x l₂; simpa [spliceOut] using ih x l₂

theorem spliceInsert_perm {α} (a : α) : ∀ (l : List α) (k : Nat),
    (spliceInsert a l k).Perm (a :: l) := by
  intro l
  induction l with
  | nil => intro k; cases k <;> exact List.Perm.refl _
  | cons x xs ih =>
      intro k
      cases k with
      | zero => exact List.Perm.refl _
      | succ n =>
          show (x :: spliceInsert a xs n).Perm (a :: x :: xs)
          exact ((ih n).cons x).trans (List.Perm.swap a x xs)

theorem spliceInsert_get_self {α} (a : α) : ∀ (l : List α) (k : Nat), k ≤ l.length →
    ∀ (h2 : k < (spliceInsert a l k).length), (spliceInsert a l k).get ⟨k, h2⟩ = a := by
  intro l
  induction l with
  | nil =>
      intro k hk h2
      cases k with
      | zero => rfl
      | succ n => exact absurd hk (by simp)
  | cons x xs ih =>
      intro k hk h2
      cases k with
      | zero => rfl
      | succ n => exact ih n (by simpa using hk) _

theorem findWithIdx_map {α β} (f : α → β) (p : β → Bool) :
    ∀ (l : List α), findWithIdx p (l.map f) =
      (findWithIdx (fun x => p (f x)) l).map (fun q => (q.1, f q.2)) := by
  intro l
  induction l with
  | nil => rfl
  | cons a as ih =>
      show findWithIdx p (f a :: as.map f) = _
      unfold findWithIdx
      cases hp : p (f a) with
      | true =>
          rw [if_pos rfl, if_pos rfl]
          rfl
      | false =>
          simp only [Bool.false_eq_true, if_false]
          rw [ih, Option.map_map, Option.map_map]
          rfl

theorem spliceOut_map {α β} (f : α → β) : ∀ (l : List α) (i : Nat),
    spliceOut (l.map f) i = (spliceOut l i).map f := by
  intro l
  induction l with
  | nil => intro i; rfl
  | cons a as ih =>
      intro i
      cases i with
      | zero => rfl
      | succ n => show f a :: spliceOut (as.map f) n = _; rw [ih n]; rfl

theorem spliceInsert_map {α β} (f : α → β) (a : α) : ∀ (l : List α) (k : Nat),
    spliceInsert (f a) (l.map f) k = (spliceInsert a l k).map f := by
  intro l
  induction l with
  | nil => intro k; cases k <;> rfl
  | cons x xs ih =>
      intro k
      cases k with
      | zero => rfl
      | succ n => show f x :: spliceInsert (f a) (xs.map f) n = _; rw [ih n]; rfl

/-!
## Reordering (claim C6): the write-back loop as a per-row function
-/

/-- The row produced when the reorder loop writes photo object `p` at loop
index `i` over a row: all columns are rewritten from `p` and the order
becomes `i + 1` (which, being positive, survives `normalizeOrderValue`
unchanged); `id` and `created_at` are untouched. -/
def applyUpd (r : GalleryRow) (p : ApiPhoto) (i : Nat) : GalleryRow :=
  { r with filename := p.filename, title := p.title, description := p.description,
           orderNum := (i : Int) + 1, mediaType := p.mediaType,
           thumbnail := p.thumbnail, mimeType := p.mimeType }

theorem normalizeOrderValue_num_pos (t : List GalleryRow) (n : Int) (h : 0 < n) :
    normalizeOrderValue t (.num n) = n := by
  unfold normalizeOrderValue jsParseOrder
  simp only [if_neg (by omega : ¬ n ≤ 0)]

theorem updatePhoto_reorder (t : List GalleryRow) (p : ApiPhoto) (i : Nat) :
    updatePhoto t p.id (reorderUpdateFields p i) =
      t.map (fun r => if r.id == p.id then applyUpd r p i else r) := by
  have hord : normalizeOrderValue t (reorderUpdateFields p i).order = (i : Int) + 1 :=
    normalizeOrderValue_num_pos t _ (by omega)
  unfold updatePhoto
  dsimp only
  simp only [hord]
  rfl

/-- Composition of the per-row write-back steps of one reorder loop. -/
def reorderChain : List ApiPhoto → Nat → GalleryRow → GalleryRow
  | [], _, r => r
  | p :: ps, i, r => reorderChain ps (i + 1) (if r.id == p.id then applyUpd r p i else r)

theorem applyReorderUpdates_eq_map : ∀ (ps : List ApiPhoto) (i : Nat) (t : List GalleryRow),
    applyReorderUpdates t ps i = t.map (fun r => reorderChain ps i r) := by
  intro ps
  induction ps with
  | nil => intro i t; simp [applyReorderUpdates, reorderChain]
  | cons p ps ih =>
      intro i t
      show applyReorderUpdates (updatePhoto t p.id (reorderUpdateFields p i)) ps (i + 1) = _
      rw [ih (i + 1), updatePhoto_reorder, List.map_map]
      rfl

theorem reorderChain_skip : ∀ (ps : List ApiPhoto) (i : Nat) (r : GalleryRow),
    (∀ q ∈ ps, q.id ≠ r.id) → reorderChain ps i r = r := by
  intro ps
  induction ps with
  | nil => intro i r _; rfl
  | cons q ps ih =>
      intro i r h
      have hqr : (r.id == q.id) = false :=
        beq_eq_false_iff_ne.mpr (Ne.symm (h q (List.mem_cons_self q ps)))
      show reorderChain ps (i + 1) (if r.id == q.id then applyUpd r q i else r) = r
      rw [hqr]
      simp only [Bool.false_eq_true, if_false]
      exact ih (i + 1) r (fun x hx => h x (List.mem_cons_of_mem q hx))

theorem reorderChain_hit : ∀ (ps₁ : List ApiPhoto) (q : ApiPhoto) (ps₂ : List ApiPhoto)
    (i : Nat) (r : GalleryRow), r.id = q.id → (∀ x ∈ ps₂, x.id ≠ q.id) →
    reorderChain (ps₁ ++ q :: ps₂) i r = applyUpd r q (i + ps₁.length) ∨
    (∃ x ∈ ps₁, x.id = r.id) := by
  intro ps₁
  induction ps₁ with
  | nil =>
      intro q ps₂ i r hrq h₂
      left
      have hbeq : (r.id == q.id) = true := beq_iff_eq.mpr hrq
      show reorderChain ps₂ (i + 1) (if r.id == q.id then applyUpd r q i else r) = _
      rw [hbeq]
      simp only [if_true]
      rw [reorderChain_skip ps₂ (i + 1) (applyUpd r q i)
            (fun x hx => by
              show x.id ≠ (applyUpd r q i).id
              show x.id ≠ r.id
              rw [hrq]
              exact h₂ x hx)]
      rfl
  | cons a ps₁ ih =>
      intro q ps₂ i r hrq h₂
      by_cases har : a.id = r.id
      · exact Or.inr ⟨a, List.mem_cons_self a ps₁, har⟩
      · have hbeq : (r.id == a.id) = false := beq_eq_false_iff_ne.mpr (Ne.symm har)
        show reorderChain (ps₁ ++ q :: ps₂) (i + 1)
              (if r.id == a.id then applyUpd r a i else r) = _ ∨ _
        rw [hbeq]
        simp only [Bool.false_eq_true, if_false]
        rcases ih q ps₂ (i + 1) r hrq h₂ with h | ⟨x, hx, hxr⟩
        · left
          rw [h]
          congr 1
          simp only [List.length_cons]
          omega
        · exact Or.inr ⟨x, List.mem_cons_of_mem a hx, hxr⟩

/-- The rows as they stand after the reorder loop ran over this list, in
list order: row at position `j` keeps its identity and creation time and
carries order `j + 1`. -/
def reorderTarget : List GalleryRow → Nat → List GalleryRow
  | [], _ => []
  | r :: rs, i => applyUpd r (rowToPhoto r) i :: reorderTarget rs (i + 1)

theorem map_reorderChain_eq_target :
    ∀ (rest : List GalleryRow) (done : List ApiPhoto),
      (∀ r ∈ rest, ∀ q ∈ done, q.id ≠ r.id) →
      ((rest.map (fun r => r.id)).Nodup) →
      rest.map (fun r => reorderChain (done ++ rest.map rowToPhoto) 0 r) =
        reorderTarget rest done.length := by
  intro rest
  induction rest with
  | nil => intro done _ _; rfl
  | cons r rest ih =>
      intro done hdisj hnodup
      rw [List.map_cons, List.nodup_cons] at hnodup
      obtain ⟨hrnot, hnodup2⟩ := hnodup
      have hrnot' : ∀ x ∈ rest, x.id ≠ r.id := by
        intro x hx he
        exact hrnot (he ▸ List.mem_map_of_mem (fun r => r.id) hx)
      show reorderChain (done ++ (rowToPhoto r :: rest.map rowToPhoto)) 0 r ::
            rest.map (fun x => reorderChain (done ++ (rowToPhoto r :: rest.map rowToPhoto)) 0 x) =
          applyUpd r (rowToPhoto r) done.length :: reorderTarget rest (done.length + 1)
      congr 1
      · rcases reorderChain_hit done (rowToPhoto r) (rest.map rowToPhoto) 0 r rfl
            (fun x hx => by
              obtain ⟨r2, hr2, hr2e⟩ := List.mem_map.mp hx
              show x.id ≠ (rowToPhoto r).id
              rw [← hr2e]
              exact hrnot' r2 hr2) with h | ⟨x, hx, hxr⟩
        · rw [h]
          congr 1
          omega
        · exact absurd hxr (hdisj r (List.mem_cons_self r rest) x hx)
      · have hassoc : done ++ (rowToPhoto r :: rest.map rowToPhoto) =
            (done ++ [rowToPhoto r]) ++ rest.map rowToPhoto := by
          simp
        rw [hassoc]
        have := ih (done ++ [rowToPhoto r])
            (fun r2 hr2 q hq => by
              rcases List.mem_append.mp hq with hq | hq
              · exact hdisj r2 (List.mem_cons_of_mem r hr2) q hq
              · rcases List.mem_singleton.mp hq with rfl
                show (rowToPhoto r).id ≠ r2.id
                exact Ne.symm (hrnot' r2 hr2))
            hnodup2
        rw [this]
        congr 1
        simp

theorem reorderTarget_length : ∀ (l : List GalleryRow) (i : Nat),
    (reorderTarget l i).length = l.length := by
  intro l
  induction l with
  | nil => intro i; rfl
  | cons r rs ih => intro i; simpa [reorderTarget] using ih (i + 1)

theorem reorderTarget_map_id : ∀ (l : List GalleryRow) (i : Nat),
    (reorderTarget l i).map (fun r => r.id) = l.map (fun r => r.id) := by
  intro l
  induction l with
  | nil => intro i; rfl
  | cons r rs ih =>
      intro i
      show (applyUpd r (rowToPhoto r) i).id :: _ = r.id :: _
      rw [ih (i + 1)]
      rfl

theorem reorderTarget_order_ge : ∀ (l : List GalleryRow) (i : Nat),
    ∀ x ∈ reorderTarget l i, (i : Int) + 1 ≤ x.orderNum := by
  intro l
  induction l with
  | nil => intro i x hx; cases hx
  | cons r rs ih =>
      intro i x hx
      rcases List.mem_cons.mp hx with rfl | hx
      · exact le_refl _
      · have := ih (i + 1) x hx
        push_cast at this ⊢
        omega

theorem reorderTarget_sorted_lt : ∀ (l : List GalleryRow) (i : Nat),
    (reorderTarget l i).Pairwise (fun a b => a.orderNum < b.orderNum) := by
  intro l
  induction l with
  | nil => intro i; exact List.Pairwise.nil
  | cons r rs ih =>
      intro i
      refine List.Pairwise.cons (fun x hx => ?_) (ih (i + 1))
      have := reorderTarget_order_ge rs (i + 1) x hx
      show (i : Int) + 1 < x.orderNum
      push_cast at this
      omega

theorem reorderTarget_get : ∀ (l : List GalleryRow) (i j : Nat) (h2 : j < l.length)
    (h : j < (reorderTarget l i).length),
    (reorderTarget l i).get ⟨j, h⟩ =
      applyUpd (l.get ⟨j, h2⟩) (rowToPhoto (l.get ⟨j, h2⟩)) (i + j) := by
  intro l
  induction l with
  | nil => intro i j h2 h; cases h2
  | cons r rs ih =>
      intro i j h2 h
      cases j with
      | zero => rfl
      | succ n =>
          show (reorderTarget rs (i + 1)).get ⟨n, _⟩ = _
          rw [ih (i + 1) n (by simpa using h2) _]
          congr 1
          omega

/-- The contiguous ascending integer sequence `v, v+1, ..., v+n-1` — the
order values the spec expects after a reorder (with `v = 1`). -/
def ordSeq : Int → Nat → List Int
  | _, 0 => []
  | v, n + 1 => v :: ordSeq (v + 1) n

theorem reorderTarget_map_order : ∀ (l : List GalleryRow) (i : Nat),
    (reorderTarget l i).map (fun r => r.orderNum) = ordSeq ((i : Int) + 1) l.length := by
  intro l
  induction l with
  | nil => intro i; rfl
  | cons r rs ih =>
      intro i
      show ((i : Int) + 1) :: (reorderTarget rs (i + 1)).map (fun r => r.orderNum) =
        ((i : Int) + 1) :: ordSeq ((i : Int) + 1 + 1) rs.length
      rw [ih (i + 1)]
      norm_num

theorem spliceInsert_getElem_self {α} (a : α) : ∀ (l : List α) (k : Nat),
    k ≤ l.length → (spliceInsert a l k)[k]? = some a := by
  intro l
  induction l with
  | nil =>
      intro k hk
      cases k with
      | zero => rfl
      | succ n => exact absurd hk (by simp)
  | cons x xs ih =>
      intro k hk
      cases k with
      | zero => rfl
      | succ n =>
          show (x :: spliceInsert a xs n)[n + 1]? = some a
          rw [List.getElem?_cons_succ]
          exact ih n (by simpa using hk)

theorem perm_sorted_key_unique {α} (key : α → Int) :
    ∀ (l₁ l₂ : List α), l₁.Perm l₂ →
      l₁.Pairwise (fun a b => key a ≤ key b) →
      l₂.Pairwise (fun a b => key a ≤ key b) →
      ((l₁.map key).Nodup) →
      l₁ = l₂ := by
  intro l₁
  induction l₁ with
  | nil =>
      intro l₂ hp _ _ _
      have := hp.length_eq
      cases l₂ with
      | nil => rfl
      | cons b l₂ => cases this
  | cons a l₁ ih =>
      intro l₂ hp hs₁ hs₂ hnd
      cases l₂ with
      | nil =>
          have := hp.length_eq
          cases this
      | cons b l₂ =>
          rw [List.map_cons, List.nodup_cons] at hnd
          obtain ⟨hka, hnd2⟩ := hnd
          have hab : a = b := by
            have hma : a ∈ b :: l₂ := hp.mem_iff.mp (List.mem_cons_self a l₁)
            have hmb : b ∈ a :: l₁ := hp.mem_iff.mpr (List.mem_cons_self b l₂)
            rcases List.mem_cons.mp hmb with hb | hb
            · exact hb.symm
            · rcases List.mem_cons.mp hma with ha | ha
              · exact ha
              · have h1 : key a ≤ key b := (List.pairwise_cons.mp hs₁).1 b hb
                have h2 : key b ≤ key a := (List.pairwise_cons.mp hs₂).1 a ha
                have h3 : key a ≠ key b := by
                  intro he
                  exact hka (he ▸ List.mem_map_of_mem key hb)
                omega
          subst hab
          rw [ih l₂ hp.cons_inv (List.pairwise_cons.mp hs₁).2
                (List.pairwise_cons.mp hs₂).2 hnd2]

/-- C6: for every gallery table with distinct identifiers, every reorder
request naming an existing item id and a target index within the list:
the handler succeeds, and re-reading the gallery yields the same items
(as a permutation of ids) whose order fields are exactly the contiguous
ascending sequence 1..n matching the new positions, with the moved item
sitting at the target index. -/
theorem reorder_gallery_contract (t : List GalleryRow) (photoId : String) (k : Nat)
    (hids : (t.map (fun r => r.id)).Nodup)
    (hmem : photoId ∈ t.map (fun r => r.id))
    (hk : k < t.length) :
    (reorderPhotosTable t photoId k).2 = true ∧
    (getGalleryPhotos (reorderPhotosTable t photoId k).1).length = t.length ∧
    ((getGalleryPhotos (reorderPhotosTable t photoId k).1).map (fun r => r.id)).Perm
      (t.map (fun r => r.id)) ∧
    (getGalleryPhotos (reorderPhotosTable t photoId k).1).map (fun r => r.orderNum) =
      ordSeq 1 t.length ∧
    ((getGalleryPhotos (reorderPhotosTable t photoId k).1).map (fun r => r.id))[k]? =
      some photoId := by
  have hperm0 : (getGalleryPhotos t).Perm t := List.perm_insertionSort photoRel t
  have hex : ∃ r ∈ getGalleryPhotos t,
      (fun r : GalleryRow => (rowToPhoto r).id == photoId) r = true := by
    obtain ⟨r, hr, hre⟩ := List.mem_map.mp hmem
    exact ⟨r, hperm0.mem_iff.mpr hr, beq_iff_eq.mpr hre⟩
  obtain ⟨⟨i, movedRow⟩, hfind⟩ :=
    findWithIdx_isSome (fun r : GalleryRow => (rowToPhoto r).id == photoId)
      (getGalleryPhotos t) hex
  obtain ⟨l₁, l₂, hsortsplit, hlen, hpx⟩ :=
    findWithIdx_eq_some (fun r : GalleryRow => (rowToPhoto r).id == photoId)
      (getGalleryPhotos t) i movedRow hfind
  have hmovedId : movedRow.id = photoId := beq_iff_eq.mp hpx
  have hfind_mapped : findWithIdx (fun p => p.id == photoId) (galleryPhotoObjects t) =
      some (i, rowToPhoto movedRow) := by
    unfold galleryPhotoObjects
    rw [findWithIdx_map rowToPhoto (fun p => p.id == photoId) (getGalleryPhotos t), hfind]
    rfl
  have hsplice_list : spliceInsert (rowToPhoto movedRow)
        (spliceOut (galleryPhotoObjects t) i) k =
      (spliceInsert movedRow (spliceOut (getGalleryPhotos t) i) k).map rowToPhoto := by
    show spliceInsert (rowToPhoto movedRow)
        (spliceOut ((getGalleryPhotos t).map rowToPhoto) i) k = _
    rw [spliceOut_map, spliceInsert_map]
  have hstep : reorderPhotosTable t photoId k =
      (applyReorderUpdates t
        ((spliceInsert movedRow (spliceOut (getGalleryPhotos t) i) k).map rowToPhoto) 0,
       true) := by
    unfold reorderPhotosTable
    dsimp only
    rw [hfind_mapped]
    dsimp only
    rw [hsplice_list]
  have hrestRows : spliceOut (getGalleryPhotos t) i = l₁ ++ l₂ := by
    rw [hsortsplit, ← hlen, spliceOut_append]
  have hnewperm : (spliceInsert movedRow (spliceOut (getGalleryPhotos t) i) k).Perm t := by
    refine (spliceInsert_perm movedRow _ k).trans ?_
    rw [hrestRows]
    refine (List.perm_middle.symm).trans ?_
    rw [← hsortsplit]
    exact hperm0
  have hnodupNew : ((spliceInsert movedRow (spliceOut (getGalleryPhotos t) i) k).map
      (fun r => r.id)).Nodup :=
    ((hnewperm.map (fun r => r.id)).nodup_iff).mpr hids
  have htarget_eq : (spliceInsert movedRow (spliceOut (getGalleryPhotos t) i) k).map
        (fun r => reorderChain
          ((spliceInsert movedRow (spliceOut (getGalleryPhotos t) i) k).map rowToPhoto) 0 r) =
      reorderTarget (spliceInsert movedRow (spliceOut (getGalleryPhotos t) i) k) 0 := by
    have h := map_reorderChain_eq_target
      (spliceInsert movedRow (spliceOut (getGalleryPhotos t) i) k) []
      (fun r _ q hq => absurd hq (List.not_mem_nil q)) hnodupNew
    simpa using h
  have hpermTarget : (applyReorderUpdates t
        ((spliceInsert movedRow (spliceOut (getGalleryPhotos t) i) k).map rowToPhoto) 0).Perm
      (reorderTarget (spliceInsert movedRow (spliceOut (getGalleryPhotos t) i) k) 0) := by
    rw [applyReorderUpdates_eq_map]
    refine ((hnewperm.symm).map _).trans ?_
    rw [htarget_eq]
  have hsortPerm : (getGalleryPhotos (applyReorderUpdates t
        ((spliceInsert movedRow (spliceOut (getGalleryPhotos t) i) k).map rowToPhoto) 0)).Perm
      (reorderTarget (spliceInsert movedRow (spliceOut (getGalleryPhotos t) i) k) 0) :=
    (List.perm_insertionSort photoRel _).trans hpermTarget
  have hsortEq : getGalleryPhotos (applyReorderUpdates t
        ((spliceInsert movedRow (spliceOut (getGalleryPhotos t) i) k).map rowToPhoto) 0) =
      reorderTarget (spliceInsert movedRow (spliceOut (getGalleryPhotos t) i) k) 0 := by
    apply perm_sorted_key_unique (fun r => r.orderNum) _ _ hsortPerm
    · have hs := List.sorted_insertionSort photoRel (applyReorderUpdates t
        ((spliceInsert movedRow (spliceOut (getGalleryPhotos t) i) k).map rowToPhoto) 0)
      refine hs.imp (fun {a b} hab => ?_)
      rcases hab with h | ⟨h, -⟩
      · exact le_of_lt h
      · exact le_of_eq h
    · exact (reorderTarget_sorted_lt _ 0).imp (fun {a b} h => le_of_lt h)
    · have hndT : ((reorderTarget
          (spliceInsert movedRow (spliceOut (getGalleryPhotos t) i) k) 0).map
            (fun r => r.orderNum)).Nodup :=
        List.pairwise_map.mpr ((reorderTarget_sorted_lt _ 0).imp (fun {a b} h => ne_of_lt h))
      exact ((hsortPerm.map (fun r => r.orderNum)).nodup_iff).mpr hndT
  have hlen_rest : (spliceOut (getGalleryPhotos t) i).length + 1 = t.length := by
    have h1 := hperm0.length_eq
    rw [hsortsplit] at h1
    rw [hrestRows]
    simp only [List.length_append, List.length_cons] at h1 ⊢
    omega
  have hnewlen : (spliceInsert movedRow (spliceOut (getGalleryPhotos t) i) k).length =
      t.length := hnewperm.length_eq
  rw [hstep]
  dsimp only
  refine ⟨rfl, ?_, ?_, ?_, ?_⟩
  · rw [hsortEq, reorderTarget_length]
    exact hnewlen
  · rw [hsortEq, reorderTarget_map_id]
    exact hnewperm.map _
  · rw [hsortEq, reorderTarget_map_order]
    rw [show ((0 : Nat) : Int) + 1 = 1 by norm_num, hnewlen]
  · rw [hsortEq, reorderTarget_map_id, List.getElem?_map,
        spliceInsert_getElem_self movedRow _ k (by omega)]
    simp [hmovedId]

/-- Concrete three-row gallery for the C6 witness. -/
def galleryRowsW : List GalleryRow :=
  [{ id := "a", filename := "a.jpg", title := "A", description := "", orderNum := 1,
     mediaType := "photo", thumbnail := none, mimeType := some "image/jpeg", createdAt := 1 },
   { id := "b", filename := "b.jpg", title := "B", description := "", orderNum := 2,
     mediaType := "photo", thumbnail := none, mimeType := some "image/jpeg", createdAt := 2 },
   { id := "c", filename := "c.jpg", title := "C", description := "", orderNum := 3,
     mediaType := "photo", thumbnail := none, mimeType := some "image/jpeg", createdAt := 3 }]

/-- C6 witness: moving the last of three photos to the front succeeds, the
re-read orders are 1, 2, 3, and the moved item sits at index 0. -/
theorem reorder_gallery_contract_witness :
    (reorderPhotosTable galleryRowsW "c" 0).2 = true ∧
    (getGalleryPhotos (reorderPhotosTable galleryRowsW "c" 0).1).map (fun r => r.orderNum) =
      ordSeq 1 galleryRowsW.length ∧
    ((getGalleryPhotos (reorderPhotosTable galleryRowsW "c" 0).1).map (fun r => r.id))[0]? =
      some "c" :=
  ⟨(reorder_gallery_contract galleryRowsW "c" 0 (by decide) (by decide) (by decide)).1,
   (reorder_gallery_contract galleryRowsW "c" 0 (by decide) (by decide) (by decide)).2.2.2.1,
   (reorder_gallery_contract galleryRowsW "c" 0 (by decide) (by decide) (by decide)).2.2.2.2⟩

/-!
## Gallery order normalization (claim C9)
-/

/-- One store-level gallery write operation (an insert whose collision error
is swallowed leaves the table unchanged, as in the handlers). -/
inductive GalleryOp where
  | add (p : PhotoData) (now : Nat)
  | upd (id : String) (f : PhotoFields)
  | del (id : String)

/-- Runs a sequence of gallery operations. -/
def applyGalleryOps (t : List GalleryRow) : List GalleryOp → List GalleryRow
  | [] => t
  | .add p now :: ops =>
      applyGalleryOps (match addPhoto t p now with
                       | .ok t2 => t2
                       | .error _ => t) ops
  | .upd id f :: ops => applyGalleryOps (updatePhoto t id f) ops
  | .del id :: ops => applyGalleryOps (deletePhotoRow t id).1 ops

theorem getNextGalleryOrder_pos {t : List GalleryRow}
    (h : ∀ r ∈ t, 1 ≤ r.orderNum) : 1 ≤ getNextGalleryOrder t := by
  unfold getNextGalleryOrder
  cases hm : (t.map (fun r => r.orderNum)).max? with
  | none => simp
  | some m =>
      have hmem := List.max?_mem (fun a b => max_choice a b) hm
      obtain ⟨r, hr, hrm⟩ := List.mem_map.mp hmem
      have h1 := h r hr
      simp only [Option.getD_some]
      omega

theorem normalizeOrderValue_pos {t : List GalleryRow}
    (h : ∀ r ∈ t, 1 ≤ r.orderNum) (o : OrderVal) : 1 ≤ normalizeOrderValue t o := by
  unfold normalizeOrderValue
  cases jsParseOrder o with
  | none => exact getNextGalleryOrder_pos h
  | some n =>
      by_cases hn : n ≤ 0
      · simp only [hn, if_true]
        exact getNextGalleryOrder_pos h
      · simp only [hn, if_false]
        omega

theorem addPhoto_ok_shape {t : List GalleryRow} {p : PhotoData} {now : Nat}
    {t2 : List GalleryRow} (h : addPhoto t p now = .ok t2) :
    t2 = t ++ [{ id := p.id, filename := p.filename, title := p.title,
                 description := p.description,
                 orderNum := normalizeOrderValue t p.order,
                 mediaType := p.mediaType.getD "photo", thumbnail := p.thumbnail,
                 mimeType := p.mimeType, createdAt := now }] := by
  unfold addPhoto at h
  split at h
  · cases h
  · exact (Except.ok.inj h).symm

theorem applyGalleryOps_order_pos (ops : List GalleryOp) :
    ∀ t, (∀ r ∈ t, 1 ≤ r.orderNum) → ∀ r ∈ applyGalleryOps t ops, 1 ≤ r.orderNum := by
  induction ops with
  | nil => intro t h; exact h
  | cons op ops ih =>
      intro t h
      cases op with
      | add p now =>
          refine ih _ ?_
          cases hadd : addPhoto t p now with
          | error e => exact h
          | ok t2 =>
              dsimp only
              rw [addPhoto_ok_shape hadd]
              intro r hr
              rcases List.mem_append.mp hr with hr | hr
              · exact h r hr
              · rcases List.mem_singleton.mp hr with rfl
                exact normalizeOrderValue_pos h p.order
      | upd id f =>
          refine ih _ ?_
          intro r hr
          unfold updatePhoto at hr
          obtain ⟨r0, hr0, hr0e⟩ := List.mem_map.mp hr
          subst hr0e
          by_cases hid : (r0.id == id) = true
          · simp only [hid, if_true]
            exact normalizeOrderValue_pos h f.order
          · simp only [Bool.not_eq_true] at hid
            simp only [hid, Bool.false_eq_true, if_false]
            exact h r0 hr0
      | del id =>
          refine ih _ ?_
          intro r hr
          exact h r (List.mem_of_mem_filter hr)

/-- C9: every gallery row reachable from the empty table through
`addPhoto`/`updatePhoto`/`deletePhoto` carries a positive order; on any table
satisfying that invariant, `normalizeOrderValue` stores a positive parsed
order as given and otherwise falls back to `getNextGalleryOrder`, which is 1
on an empty gallery and one more than the current maximum otherwise, and an
accepted insert appends exactly the row carrying the normalized order. -/
theorem gallery_order_contract :
    (∀ ops : List GalleryOp, ∀ r ∈ applyGalleryOps [] ops, 1 ≤ r.orderNum) ∧
    (∀ (t : List GalleryRow) (o : OrderVal) (n : Int),
       jsParseOrder o = some n → 0 < n → normalizeOrderValue t o = n) ∧
    (∀ (t : List GalleryRow) (o : OrderVal),
       jsParseOrder o = none ∨ (∃ n, jsParseOrder o = some n ∧ n ≤ 0) →
       normalizeOrderValue t o = getNextGalleryOrder t) ∧
    getNextGalleryOrder [] = 1 ∧
    (∀ (t : List GalleryRow) (m : Int),
       (t.map (fun r => r.orderNum)).max? = some m → getNextGalleryOrder t = m + 1) ∧
    (∀ (t : List GalleryRow) (p : PhotoData) (now : Nat) (t2 : List GalleryRow),
       addPhoto t p now = .ok t2 →
       ∃ row, t2 = t ++ [row] ∧ row.id = p.id ∧
         row.orderNum = normalizeOrderValue t p.order) := by
  refine ⟨fun ops => applyGalleryOps_order_pos ops [] (by intro r hr; cases hr),
          ?_, ?_, rfl, ?_, ?_⟩
  · intro t o n hparse hpos
    unfold normalizeOrderValue
    rw [hparse]
    simp only [if_neg (by omega : ¬ n ≤ 0)]
  · intro t o h
    unfold normalizeOrderValue
    rcases h with h | ⟨n, hparse, hn⟩
    · rw [h]
    · rw [hparse]
      simp only [if_pos hn]
  · intro t m hm
    unfold getNextGalleryOrder
    rw [hm]
    rfl
  · intro t p now t2 h
    exact ⟨_, addPhoto_ok_shape h, rfl, rfl⟩

/-- C9 witness: the contract applied at concrete inputs — a positive parsed
string order is stored as given, and the empty-gallery fallback is 1. -/
theorem gallery_order_contract_witness :
    normalizeOrderValue [] (OrderVal.str "5") = 5 :=
  gallery_order_contract.2.1 [] (OrderVal.str "5") 5 (by decide) (by decide)

/-!
## Upload insert retry (claim C7)
-/

/-- C7 (amended): the catch around the first `db.addPhoto` is
indiscriminate, so the block runs at most two insert attempts; a first
attempt that succeeds is never retried; ANY first-attempt failure —
identifier collision or other storage failure — triggers exactly one retry
under a freshly generated identifier; a failing retry is surfaced with the
table unchanged; and in the identifier-collision case with a free fresh id
the retry stores the row under the fresh identifier. -/
theorem insert_retry_contract (t : List GalleryRow) (p : PhotoData) (freshId : String)
    (f1 f2 : Bool) (now : Nat) :
    (insertWithRetry t p freshId f1 f2 now).attempts ≤ 2 ∧
    (∀ t2, attemptInsert f1 t p now = .ok t2 →
       insertWithRetry t p freshId f1 f2 now =
         { gallery := t2, photo := p, success := true, attempts := 1 }) ∧
    (∀ e, attemptInsert f1 t p now = .error e →
       (insertWithRetry t p freshId f1 f2 now).attempts = 2 ∧
       (insertWithRetry t p freshId f1 f2 now).photo.id = freshId) ∧
    (∀ e e2, attemptInsert f1 t p now = .error e →
       attemptInsert f2 t { p with id := freshId } now = .error e2 →
       insertWithRetry t p freshId f1 f2 now =
         { gallery := t, photo := { p with id := freshId }, success := false,
           attempts := 2 }) ∧
    (f1 = false → f2 = false → t.any (fun r => r.id == p.id) = true →
       t.any (fun r => r.id == freshId) = false →
       (insertWithRetry t p freshId f1 f2 now).success = true ∧
       (insertWithRetry t p freshId f1 f2 now).attempts = 2 ∧
       (insertWithRetry t p freshId f1 f2 now).photo = { p with id := freshId } ∧
       ((insertWithRetry t p freshId f1 f2 now).gallery.map (fun r => r.id)) =
         (t.map (fun r => r.id)) ++ [freshId]) := by
  refine ⟨?_, ?_, ?_, ?_, ?_⟩
  · unfold insertWithRetry
    cases attemptInsert f1 t p now with
    | ok t2 => simp
    | error e =>
        dsimp only
        cases attemptInsert f2 t { p with id := freshId } now with
        | ok t2 => simp
        | error e2 => simp
  · intro t2 h1
    unfold insertWithRetry
    rw [h1]
  · intro e h1
    unfold insertWithRetry
    rw [h1]
    dsimp only
    cases attemptInsert f2 t { p with id := freshId } now with
    | ok t2 => exact ⟨rfl, rfl⟩
    | error e2 => exact ⟨rfl, rfl⟩
  · intro e e2 h1 h2
    unfold insertWithRetry
    rw [h1]
    dsimp only
    rw [h2]
  · intro hf1 hf2 hcoll hfree
    subst hf1
    subst hf2
    have h1 : attemptInsert false t p now = .error .pkConflict := by
      simp [attemptInsert, addPhoto, hcoll]
    have hfree' : t.any (fun r => r.id == ({ p with id := freshId } : PhotoData).id) = false :=
      hfree
    have h2 : attemptInsert false t { p with id := freshId } now =
        .ok (t ++ [{ id := freshId, filename := p.filename, title := p.title,
                     description := p.description,
                     orderNum := normalizeOrderValue t p.order,
                     mediaType := p.mediaType.getD "photo", thumbnail := p.thumbnail,
                     mimeType := p.mimeType, createdAt := now }]) := by
      simp [attemptInsert, addPhoto, hfree']
    unfold insertWithRetry
    rw [h1]
    dsimp only
    rw [h2]
    refine ⟨rfl, rfl, rfl, ?_⟩
    simp

/-- The first insert attempt of C7's counterexample fails with a storage
fault that is not an identifier collision. -/
def photoIoFault : PhotoData :=
  { id := "orig", filename := "f.jpg", title := "t", description := "",
    order := .missing, mediaType := some "photo", thumbnail := none,
    mimeType := some "image/jpeg" }

/-- C7 counterexample: on an empty table (so no collision is possible) the
first insert fails with an injected non-collision storage error, yet the
block does not surface it — it regenerates the identifier and retries, and
the retry succeeds. A non-collision storage failure is therefore not
"surfaced immediately without retry". -/
theorem insert_retry_noncollision_counterexample :
    attemptInsert true [] photoIoFault 7 = .error .ioError ∧
    (insertWithRetry [] photoIoFault "fresh" true false 7).attempts = 2 ∧
    (insertWithRetry [] photoIoFault "fresh" true false 7).success = true ∧
    ((insertWithRetry [] photoIoFault "fresh" true false 7).gallery.map
      (fun r => r.id)) = ["fresh"] :=
  ⟨rfl, by decide, by decide, by decide⟩

/-- A table already holding the identifier the upload generated first. -/
def collidingRow : GalleryRow :=
  { id := "dup", filename := "old.jpg", title := "old", description := "",
    orderNum := 1, mediaType := "photo", thumbnail := none,
    mimeType := some "image/jpeg", createdAt := 0 }

/-- The upload photo of C7's witness, colliding with `collidingRow`. -/
def photoColliding : PhotoData :=
  { id := "dup", filename := "f.jpg", title := "t", description := "",
    order := .missing, mediaType := some "photo", thumbnail := none,
    mimeType := some "image/jpeg" }

/-- C7 witness: the amended theorem applied at a concrete identifier
collision — exactly one retry, under the fresh identifier, which lands the
row. -/
theorem insert_retry_contract_witness :
    (insertWithRetry [collidingRow] photoColliding "fresh2" false false 9).success = true ∧
    (insertWithRetry [collidingRow] photoColliding "fresh2" false false 9).attempts = 2 ∧
    (insertWithRetry [collidingRow] photoColliding "fresh2" false false 9).photo =
      { photoColliding with id := "fresh2" } ∧
    ((insertWithRetry [collidingRow] photoColliding "fresh2" false false 9).gallery.map
      (fun r => r.id)) = ["dup", "fresh2"] :=
  (insert_retry_contract [collidingRow] photoColliding "fresh2" false false 9).2.2.2.2
    rfl rfl (by decide) (by decide)

/-!
## Sanitization (claim C5)
-/

theorem stripTagsAux_no_lt : ∀ (mode : Bool) (cs : List Char), '<' ∉ stripTagsAux mode cs := by
  intro mode cs
  induction cs generalizing mode with
  | nil => cases mode <;> simp [stripTagsAux]
  | cons c cs ih =>
      cases mode with
      | true =>
          by_cases h : c = '>' <;> simp [stripTagsAux, h, ih]
      | false =>
          by_cases h : c = '<'
          · simp [stripTagsAux, h, ih]
          · simp only [stripTagsAux, if_neg h, List.mem_cons]
            rintro (rfl | hmem)
            · exact h rfl
            · exact ih false hmem

theorem sanitizeString_no_lt (v : JsVal) (n : Nat) : '<' ∉ (sanitizeString v n).data := by
  cases v with
  | str s =>
      intro hmem
      exact stripTagsAux_no_lt false s.data (List.take_subset n _ hmem)
  | undef => simp [sanitizeString]
  | boolVal c => simp [sanitizeString]
  | numVal m => simp [sanitizeString]

theorem sanitizeString_length_le (v : JsVal) (n : Nat) : (sanitizeString v n).length ≤ n := by
  cases v with
  | str s =>
      show (List.take n (stripTagsAux false s.data)).length ≤ n
      rw [List.length_take]
      exact min_le_left n _
  | undef => simp [sanitizeString]
  | boolVal c => simp [sanitizeString]
  | numVal m => simp [sanitizeString]

/-- The tour row stored by a successful authenticated `POST /api/tours`. -/
def storedTourOf (st : Store) (b : TourBody) (now : Nat) : TourRow :=
  { id := st.tours.seq + 1, date := b.date.asStr,
    city := sanitizeString b.city 200, venue := sanitizeString b.venue 200,
    ticketLink := sanitizeString (jsOrVal b.ticketLink (.str "")) 200,
    createdAt := now, updatedAt := now }

theorem postTours_stores {pw hdr : Option String} {now : Nat} {st : Store} {b : TourBody}
    (hauth : requireAuth pw hdr = .ok) (hval : validateTourData b = none) :
    (serveMutating pw hdr now st (.postTours b)).1.tours.rows =
      st.tours.rows ++ [storedTourOf st b now] := by
  rw [serveMutating_postTours_ok hauth]
  unfold postToursHandler
  rw [hval]
  rfl

/-- C5 (amended): `sanitizeString` leaves no `<` in its output and truncates
to the maximum length (call sites use the default 200); it is applied to the
tour free-text fields (city, venue, ticket link) and to the countdown text
fields before storage, and the claimed example strips to
`alert(1)Barcelona` with no angle-bracket markup — but it is NOT applied to
gallery item titles or descriptions, which the upload handler stores raw
(see the counterexample). -/
theorem sanitization_contract :
    (∀ (v : JsVal) (n : Nat),
       '<' ∉ (sanitizeString v n).data ∧ (sanitizeString v n).length ≤ n) ∧
    (∀ (pw hdr : Option String) (now : Nat) (st : Store) (b : TourBody),
       requireAuth pw hdr = .ok → validateTourData b = none →
       (serveMutating pw hdr now st (.postTours b)).1.tours.rows =
         st.tours.rows ++ [storedTourOf st b now]) ∧
    (∀ (pw hdr : Option String) (now : Nat) (st : Store) (b : CountdownBody),
       requireAuth pw hdr = .ok →
       getCountdown (serveMutating pw hdr now st (.postCountdown b)).1.countdown =
         some (storedCountdownOf b now)) ∧
    sanitizeString (.str "<script>alert(1)</script>Barcelona") 200 = "alert(1)Barcelona" ∧
    '<' ∉ "alert(1)Barcelona".data ∧ '>' ∉ "alert(1)Barcelona".data := by
  refine ⟨fun v n => ⟨sanitizeString_no_lt v n, sanitizeString_length_le v n⟩,
          fun pw hdr now st b hauth hval => postTours_stores hauth hval,
          fun pw hdr now st b hauth => ?_, by decide, by decide, by decide⟩
  rw [serveMutating_postCountdown_ok hauth]
  exact updateCountdown_read st.countdown _ now

/-- The upload of C5's counterexample: a valid image upload whose title
field carries markup. -/
def uploadMarkupTitle : UploadReq :=
  { media := some { filename := "media-1.jpg", originalname := "o.jpg",
                    mimetype := "image/jpeg" },
    thumbnailFile := none, title := some "<i>hi</i>", description := none,
    order := none, mediaType := none, genId1 := "id1", genId2 := "id2",
    ioFault1 := false, ioFault2 := false }

/-- C5 counterexample: the gallery title is a free-text field, yet an
authenticated `POST /admin/add-photo` stores it exactly as submitted,
angle-bracket markup included — sanitization is not applied to every
free-text field before storage. -/
theorem gallery_title_stored_unsanitized :
    ((serveMutating (some "pw") (some "Bearer pw") 3 emptyStore
        (.addPhotoUpload uploadMarkupTitle)).1.gallery.map (fun r => r.title)) =
      ["<i>hi</i>"] ∧ '<' ∈ "<i>hi</i>".data := by
  decide

/-- C5 witness: the amended theorem applied to a concrete tour body whose
city is the claimed example — the stored row is the sanitized one. -/
theorem sanitization_contract_witness :
    (serveMutating (some "pw") (some "Bearer pw") 4 emptyStore
        (.postTours { date := .str "2025-01-01",
                      city := .str "<script>alert(1)</script>Barcelona",
                      venue := .str "V", ticketLink := .undef })).1.tours.rows =
      emptyStore.tours.rows ++
        [storedTourOf emptyStore
          { date := .str "2025-01-01",
            city := .str "<script>alert(1)</script>Barcelona",
            venue := .str "V", ticketLink := .undef } 4] :=
  sanitization_contract.2.1 (some "pw") (some "Bearer pw") 4 emptyStore
    { date := .str "2025-01-01", city := .str "<script>alert(1)</script>Barcelona",
      venue := .str "V", ticketLink := .undef } (by decide) (by decide)

/-- C2 witness: the theorem applied to a concrete body with an empty city —
the request is refused with the message naming city, and the store state is
returned unchanged. -/
theorem tour_validation_contract_witness :
    serveMutating (some "pw") (some "Bearer pw") 0 emptyStore
        (.postTours { date := .str "2025-01-01", city := .str "", venue := .str "X",
                      ticketLink := .undef }) =
      (emptyStore, .badRequest (requiredMsg .city)) :=
  (tour_validation_contract
      { date := .str "2025-01-01", city := .str "", venue := .str "X",
        ticketLink := .undef }).2.2 (some "pw") (some "Bearer pw") 0 emptyStore
    (requiredMsg .city) (by decide) (by decide)

end WebDema
